import Mathlib

/-!
Verification of the track-chunk decoding core of the `standard_midi_file`
crate. Byte streams are modelled as `List Nat` (each element one `u8`,
masked to `% 256` at every read), readers as functions from a stream to
`Except SMFError (result × remaining stream)`, and the Rust `?` operator
as explicit matches on `Except`. Machine arithmetic on `u8`/`u16`/`u32`
values is carried out on `Nat`, with `% 256` (etc.) inserted exactly where
the Rust types truncate; the shifts inside the VLV codec never overflow
`u32` (values stay below `2 ^ 28`), so plain `Nat` arithmetic is faithful
there.
-/

deriving instance DecidableEq for Except

namespace SMF

/-- Errors related to VLVs (`error.rs`, `VLVError`). -/
inductive VLVError where
  | NumberTooBig (value : Nat)
  | VLVTooBig
  deriving DecidableEq

/-- Error type of the crate (`error.rs`, `SMFError`), restricted to the
variants reachable from track decoding. `IOError` stands for any
`std::io::Error` coming from the underlying byte source (here: reading
past the end of the stream); `MagicNumber` stands for a failed
`check_magic_number`. -/
inductive SMFError where
  | IOError
  | VLV (e : VLVError)
  | MagicNumber
  | NoPreviousEvent
  | UnknownEvent (codeByte : Nat)
  | UnexpectedMetaEventLength (declaredLength : Nat)
  | KeySignatureUnknownKey (value : Nat)
  deriving DecidableEq

/-- `read_to_u8`: one byte from the stream, failing at end of input. -/
def readU8 : List Nat → Except SMFError (Nat × List Nat)
  | [] => .error .IOError
  | b :: rest => .ok (b % 256, rest)

/-- `read_exact` into a buffer of `n` bytes. -/
def readExact (n : Nat) (s : List Nat) : Except SMFError (List Nat × List Nat) :=
  if n ≤ s.length then .ok ((s.take n).map (fun b => b % 256), s.drop n)
  else .error .IOError

/-- `read_be_to_u16`: two bytes, big-endian. -/
def readBeU16 (s : List Nat) : Except SMFError (Nat × List Nat) :=
  match readU8 s with
  | .error e => .error e
  | .ok (b1, s1) =>
    match readU8 s1 with
    | .error e => .error e
    | .ok (b2, s2) => .ok (b1 * 256 + b2, s2)

/-- `read_be_to_u32`: four bytes, big-endian. -/
def readBeU32 (s : List Nat) : Except SMFError (Nat × List Nat) :=
  match readBeU16 s with
  | .error e => .error e
  | .ok (hi, s1) =>
    match readBeU16 s1 with
    | .error e => .error e
    | .ok (lo, s2) => .ok (hi * 65536 + lo, s2)

/-- `seek(SeekFrom::Current(n))` with `n ≥ 0`: skip forward `n` bytes. -/
def skipBytes (n : Nat) (s : List Nat) : List Nat := s.drop n

/-- `calc_vlv_length` from `vlv.rs`: encoded length of a VLV, or
`NumberTooBig` when the value does not fit in 28 bits. -/
def calc_vlv_length (value : Nat) : Except SMFError Nat :=
  if value < 2 ^ 7 then .ok 1
  else if value < 2 ^ 14 then .ok 2
  else if value < 2 ^ 21 then .ok 3
  else if value < 2 ^ 28 then .ok 4
  else .error (.VLV (.NumberTooBig value))

/-- Loop body of `VLV::import`. `realLength` counts the bytes consumed so
far; the Rust loop increments it, errors with `VLVTooBig` when it exceeds
4, then reads a byte, shifts the low 7 bits in (`value <<= 7; value |= b
& 0x7F`, which on disjoint bit ranges is `value * 128 + b % 128`), and
stops when the continuation bit (`b & 0x80`) is clear. -/
def VLV.importLoop (realLength value : Nat) (s : List Nat) :
    Except SMFError (Nat × List Nat) :=
  if realLength + 1 > 4 then .error (.VLV .VLVTooBig)
  else
    match s with
    | [] => .error .IOError
    | b :: rest =>
      let codeByte := b % 256
      let value := value * 128 + codeByte % 128
      if codeByte < 128 then .ok (value, rest)
      else VLV.importLoop (realLength + 1) value rest

/-- `VLV::import`: read a VLV from the stream, returning its value. -/
def VLV.import (s : List Nat) : Except SMFError (Nat × List Nat) :=
  VLV.importLoop 0 0 s

/-- Loop body of `VLV::partial_import`: the same accumulation, but the
byte for the current iteration was already consumed (a seed byte first,
then further bytes read at the bottom of the loop). -/
def VLV.importSeededLoop (realLength value codeByte : Nat) (s : List Nat) :
    Except SMFError (Nat × List Nat) :=
  if realLength + 1 > 4 then .error (.VLV .VLVTooBig)
  else
    let value := value * 128 + codeByte % 128
    if codeByte % 256 < 128 then .ok (value, s)
    else
      match s with
      | [] => .error .IOError
      | b :: rest => VLV.importSeededLoop (realLength + 1) value (b % 256) rest

/-- `VLV::partial_import`: read a VLV whose first byte `firstByte` was
already consumed by the caller. -/
def VLV.importSeeded (s : List Nat) (firstByte : Nat) :
    Except SMFError (Nat × List Nat) :=
  VLV.importSeededLoop 0 0 firstByte s

/-- The byte list written by the loop of `VLV::export` for a value of
encoded length `realLength`: byte `idx` is the 7-bit group
`(value >> ((realLength - idx - 1) * 7)) & 0x7F`, with the continuation
bit `0x80` added on every byte but the last. -/
def VLV.exportBytes (value realLength : Nat) : List Nat :=
  (List.range realLength).map fun idx =>
    let shifted := value / 128 ^ (realLength - idx - 1)
    let writeByte := shifted % 128
    if idx + 1 < realLength then writeByte + 128 else writeByte

/-- `VLV::export`: the bytes written to the writer, or the error of
`calc_vlv_length`. -/
def VLV.export (value : Nat) : Except SMFError (List Nat) :=
  match calc_vlv_length value with
  | .error e => .error e
  | .ok realLength => .ok (VLV.exportBytes value realLength)

/-- A `u8` read as `i8` (`read_to_i8`), as an integer. -/
def toI8 (b : Nat) : Int :=
  if b % 256 < 128 then (b % 256 : Int) else (b % 256 : Int) - 256

/-- The replacement character U+FFFD. -/
def replacementChar : Char := Char.ofNat 0xFFFD

/-- Byte-level model of Rust's `String::from_utf8_lossy`: decode UTF-8,
replacing each maximal subpart of an ill-formed subsequence with U+FFFD.
The second-byte ranges follow the UTF-8 table: lead `E0` requires
`A0..BF`, `ED` requires `80..9F` (no surrogates), `F0` requires `90..BF`,
`F4` requires `80..8F`; all later bytes require `80..BF`. On an invalid
or missing byte the bytes consumed so far form the maximal subpart: one
U+FFFD is emitted and decoding resumes at the offending byte. -/
def utf8Lossy : List Nat → List Char
  | [] => []
  | b1 :: t1 =>
    if b1 < 0x80 then Char.ofNat b1 :: utf8Lossy t1
    else if b1 < 0xC2 then replacementChar :: utf8Lossy t1
    else if b1 < 0xE0 then
      match t1 with
      | [] => [replacementChar]
      | b2 :: t2 =>
        if 0x80 ≤ b2 ∧ b2 < 0xC0 then
          Char.ofNat ((b1 - 0xC0) * 64 + (b2 - 0x80)) :: utf8Lossy t2
        else replacementChar :: utf8Lossy (b2 :: t2)
    else if b1 < 0xF0 then
      match t1 with
      | [] => [replacementChar]
      | b2 :: t2 =>
        if (if b1 = 0xE0 then 0xA0 else 0x80) ≤ b2 ∧
            b2 < (if b1 = 0xED then 0xA0 else 0xC0) then
          match t2 with
          | [] => [replacementChar]
          | b3 :: t3 =>
            if 0x80 ≤ b3 ∧ b3 < 0xC0 then
              Char.ofNat ((b1 - 0xE0) * 4096 + (b2 - 0x80) * 64 + (b3 - 0x80)) ::
                utf8Lossy t3
            else replacementChar :: utf8Lossy (b3 :: t3)
        else replacementChar :: utf8Lossy (b2 :: t2)
    else if b1 < 0xF5 then
      match t1 with
      | [] => [replacementChar]
      | b2 :: t2 =>
        if (if b1 = 0xF0 then 0x90 else 0x80) ≤ b2 ∧
            b2 < (if b1 = 0xF4 then 0x90 else 0xC0) then
          match t2 with
          | [] => [replacementChar]
          | b3 :: t3 =>
            if 0x80 ≤ b3 ∧ b3 < 0xC0 then
              match t3 with
              | [] => [replacementChar]
              | b4 :: t4 =>
                if 0x80 ≤ b4 ∧ b4 < 0xC0 then
                  Char.ofNat ((b1 - 0xF0) * 262144 + (b2 - 0x80) * 4096 +
                      (b3 - 0x80) * 64 + (b4 - 0x80)) :: utf8Lossy t4
                else replacementChar :: utf8Lossy (b4 :: t4)
            else replacementChar :: utf8Lossy (b3 :: t3)
        else replacementChar :: utf8Lossy (b2 :: t2)
    else replacementChar :: utf8Lossy t1

/-- `NoteChange` (`track/event.rs`): payload of NoteOff and NoteOn. -/
structure NoteChange where
  channel : Nat
  key : Nat
  velocity : Nat
  deriving DecidableEq

/-- `NoteChange::import`: channel from the status low nibble, key from the
first data byte, velocity read from the stream. -/
def NoteChange.import (s : List Nat) (codeByte nextByte : Nat) :
    Except SMFError (NoteChange × List Nat) :=
  match readU8 s with
  | .error e => .error e
  | .ok (velocity, s1) =>
    .ok ({ channel := codeByte % 16, key := nextByte, velocity := velocity }, s1)

structure PolyphonicKeyPressure where
  channel : Nat
  key : Nat
  pressure : Nat
  deriving DecidableEq

def PolyphonicKeyPressure.import (s : List Nat) (codeByte nextByte : Nat) :
    Except SMFError (PolyphonicKeyPressure × List Nat) :=
  match readU8 s with
  | .error e => .error e
  | .ok (pressure, s1) =>
    .ok ({ channel := codeByte % 16, key := nextByte, pressure := pressure }, s1)

structure ControllerChange where
  channel : Nat
  controllerNumber : Nat
  value : Nat
  deriving DecidableEq

def ControllerChange.import (s : List Nat) (codeByte nextByte : Nat) :
    Except SMFError (ControllerChange × List Nat) :=
  match readU8 s with
  | .error e => .error e
  | .ok (value, s1) =>
    .ok ({ channel := codeByte % 16, controllerNumber := nextByte, value := value }, s1)

structure ProgramChange where
  channel : Nat
  program : Nat
  deriving DecidableEq

/-- `ProgramChange::import` reads nothing further from the stream. -/
def ProgramChange.import (codeByte nextByte : Nat) : ProgramChange :=
  { channel := codeByte % 16, program := nextByte }

structure ChannelPressure where
  channel : Nat
  pressure : Nat
  deriving DecidableEq

/-- `ChannelPressure::import` reads nothing further from the stream. -/
def ChannelPressure.import (codeByte nextByte : Nat) : ChannelPressure :=
  { channel := codeByte % 16, pressure := nextByte }

structure PitchBend where
  channel : Nat
  value : Nat
  deriving DecidableEq

/-- `PitchBend::import`: the byte read here (second data byte) becomes the
high 8 bits, the first data byte `nextByte` the low 8 bits
(`u16::from(read) << 8 | u16::from(next_byte)`). -/
def PitchBend.import (s : List Nat) (codeByte nextByte : Nat) :
    Except SMFError (PitchBend × List Nat) :=
  match readU8 s with
  | .error e => .error e
  | .ok (b, s1) =>
    .ok ({ channel := codeByte % 16, value := b * 256 + nextByte }, s1)

/-- `SystemExclusive` payload: a VLV length then that many raw bytes. -/
structure SystemExclusive where
  length : Nat
  data : List Nat
  deriving DecidableEq

/-- `SystemExclusive::import`: VLV length seeded with the already-consumed
first data byte (`VLV::partial_import`), then `length` raw bytes. -/
def SystemExclusive.import (s : List Nat) (nextByte : Nat) :
    Except SMFError (SystemExclusive × List Nat) :=
  match VLV.importSeeded s nextByte with
  | .error e => .error e
  | .ok (length, s1) =>
    match readExact length s1 with
    | .error e => .error e
    | .ok (data, s2) => .ok ({ length := length, data := data }, s2)

structure SequenceNumber where
  sequenceNumber : Nat
  deriving DecidableEq

/-- `SequenceNumber::import`: VLV length (error below 2), a big-endian
`u16`, then a skip of `length - 2` surplus bytes when the declared length
exceeds 2. -/
def SequenceNumber.import (s : List Nat) :
    Except SMFError (SequenceNumber × List Nat) :=
  match VLV.import s with
  | .error e => .error e
  | .ok (length, s1) =>
    if length < 2 then .error (.UnexpectedMetaEventLength length)
    else
      match readBeU16 s1 with
      | .error e => .error e
      | .ok (sequenceNumber, s2) =>
        let s3 := if length > 2 then skipBytes (length - 2) s2 else s2
        .ok ({ sequenceNumber := sequenceNumber }, s3)

/-- Payload of the nine free-text meta events. -/
structure TextMessage where
  length : Nat
  text : String
  deriving DecidableEq

/-- `TextMessage::import`: VLV length, exactly that many payload bytes,
converted with `String::from_utf8_lossy`. -/
def TextMessage.import (s : List Nat) :
    Except SMFError (TextMessage × List Nat) :=
  match VLV.import s with
  | .error e => .error e
  | .ok (length, s1) =>
    match readExact length s1 with
    | .error e => .error e
    | .ok (data, s2) =>
      .ok ({ length := length, text := String.mk (utf8Lossy data) }, s2)

structure MIDIChannelPrefix where
  channel : Nat
  deriving DecidableEq

/-- Import of the channel-prefix meta event: VLV length (error below 1),
one byte, then a skip of `length - 1` surplus bytes when the declared
length exceeds 1. -/
def MIDIChannelPrefix.import (s : List Nat) :
    Except SMFError ( MIDIChannelPrefix × List Nat) :=
  match VLV.import s with
  | .error e => .error e
  | .ok (length, s1) =>
    if length < 1 then .error (.UnexpectedMetaEventLength length)
    else
      match readU8 s1 with
      | .error e => .error e
      | .ok (channel, s2) =>
        let s3 := if length > 1 then skipBytes (length - 1) s2 else s2
        .ok ({ channel := channel }, s3)

structure MIDIPort where
  port : Nat
  deriving DecidableEq

/-- `MIDIPort::import`: same shape as the channel prefix. -/
def MIDIPort.import (s : List Nat) : Except SMFError (MIDIPort × List Nat) :=
  match VLV.import s with
  | .error e => .error e
  | .ok (length, s1) =>
    if length < 1 then .error (.UnexpectedMetaEventLength length)
    else
      match readU8 s1 with
      | .error e => .error e
      | .ok (port, s2) =>
        let s3 := if length > 1 then skipBytes (length - 1) s2 else s2
        .ok ({ port := port }, s3)

structure EndOfTrack where
  deriving DecidableEq

/-- `EndOfTrack::import`: VLV length, and a skip of all `length` bytes
when the declared length is not 0. -/
def EndOfTrack.import (s : List Nat) : Except SMFError (EndOfTrack × List Nat) :=
  match VLV.import s with
  | .error e => .error e
  | .ok (length, s1) =>
    let s2 := if length ≠ 0 then skipBytes length s1 else s1
    .ok ({}, s2)

structure Tempo where
  value : Nat
  deriving DecidableEq

/-- `Tempo::import`: VLV length (error below 3), three value bytes
big-endian, then — as written in the source — a skip of `length - 1`
bytes when the declared length exceeds 3. -/
def Tempo.import (s : List Nat) : Except SMFError (Tempo × List Nat) :=
  match VLV.import s with
  | .error e => .error e
  | .ok (length, s1) =>
    if length < 3 then .error (.UnexpectedMetaEventLength length)
    else
      match readU8 s1 with
      | .error e => .error e
      | .ok (b1, s2) =>
        match readU8 s2 with
        | .error e => .error e
        | .ok (b2, s3) =>
          match readU8 s3 with
          | .error e => .error e
          | .ok (b3, s4) =>
            let value := b1 * 65536 + b2 * 256 + b3
            let s5 := if length > 3 then skipBytes (length - 1) s4 else s4
            .ok ({ value := value }, s5)

structure SMPTEOffset where
  hours : Nat
  minutes : Nat
  seconds : Nat
  frames : Nat
  fractionalFrames : Nat
  deriving DecidableEq

/-- `SMPTEOffset::import`: VLV length (error below 5), five bytes, then —
as written in the source — a skip of `length - 1` bytes when the declared
length exceeds 5. -/
def SMPTEOffset.import (s : List Nat) : Except SMFError (SMPTEOffset × List Nat) :=
  match VLV.import s with
  | .error e => .error e
  | .ok (length, s1) =>
    if length < 5 then .error (.UnexpectedMetaEventLength length)
    else
      match readU8 s1 with
      | .error e => .error e
      | .ok (hours, s2) =>
        match readU8 s2 with
        | .error e => .error e
        | .ok (minutes, s3) =>
          match readU8 s3 with
          | .error e => .error e
          | .ok (seconds, s4) =>
            match readU8 s4 with
            | .error e => .error e
            | .ok (frames, s5) =>
              match readU8 s5 with
              | .error e => .error e
              | .ok (fractionalFrames, s6) =>
                let s7 := if length > 5 then skipBytes (length - 1) s6 else s6
                .ok ({ hours := hours, minutes := minutes, seconds := seconds,
                       frames := frames, fractionalFrames := fractionalFrames }, s7)

structure TimeSignature where
  numerator : Nat
  denominator : Nat
  clocksBetweenMetronomeClicks : Nat
  yes : Nat
  deriving DecidableEq

/-- `TimeSignature::import`: VLV length (error below 4), four bytes, then
— as written in the source — a skip of `length - 1` bytes when the
declared length exceeds 4. -/
def TimeSignature.import (s : List Nat) : Except SMFError (TimeSignature × List Nat) :=
  match VLV.import s with
  | .error e => .error e
  | .ok (length, s1) =>
    if length < 4 then .error (.UnexpectedMetaEventLength length)
    else
      match readU8 s1 with
      | .error e => .error e
      | .ok (numerator, s2) =>
        match readU8 s2 with
        | .error e => .error e
        | .ok (denominator, s3) =>
          match readU8 s3 with
          | .error e => .error e
          | .ok (clocks, s4) =>
            match readU8 s4 with
            | .error e => .error e
            | .ok (yes, s5) =>
              let s6 := if length > 4 then skipBytes (length - 1) s5 else s5
              .ok ({ numerator := numerator, denominator := denominator,
                     clocksBetweenMetronomeClicks := clocks, yes := yes }, s6)

/-- `Key` of a key signature. -/
inductive Key where
  | Major
  | Minor
  deriving DecidableEq

/-- `Key::import`: byte 0 is major, 1 is minor, anything else fails with
`KeySignatureUnknownKey`. -/
def Key.import (s : List Nat) : Except SMFError (Key × List Nat) :=
  match readU8 s with
  | .error e => .error e
  | .ok (key, s1) =>
    match key with
    | 0 => .ok (.Major, s1)
    | 1 => .ok (.Minor, s1)
    | x => .error (.KeySignatureUnknownKey x)

structure KeySignature where
  flatsSharps : Int
  key : Key
  deriving DecidableEq

/-- `KeySignature::import`: VLV length (error below 2), an `i8` and a
`Key`, then — as written in the source — a skip of `length - 1` bytes
when the declared length exceeds 2. -/
def KeySignature.import (s : List Nat) : Except SMFError (KeySignature × List Nat) :=
  match VLV.import s with
  | .error e => .error e
  | .ok (length, s1) =>
    if length < 2 then .error (.UnexpectedMetaEventLength length)
    else
      match readU8 s1 with
      | .error e => .error e
      | .ok (b, s2) =>
        match Key.import s2 with
        | .error e => .error e
        | .ok (key, s3) =>
          let s4 := if length > 2 then skipBytes (length - 1) s3 else s3
          .ok ({ flatsSharps := toI8 b, key := key }, s4)

/-- `GenericMetaEvent`: sequencer-specific and unknown meta events, kept
as a VLV length plus raw payload. -/
structure GenericMetaEvent where
  length : Nat
  data : List Nat
  deriving DecidableEq

def GenericMetaEvent.import (s : List Nat) :
    Except SMFError (GenericMetaEvent × List Nat) :=
  match VLV.import s with
  | .error e => .error e
  | .ok (length, s1) =>
    match readExact length s1 with
    | .error e => .error e
    | .ok (data, s2) => .ok ({ length := length, data := data }, s2)

/-- The closed event union of `track/event.rs`. -/
inductive Event where
  | NoteOff (n : NoteChange)
  | NoteOn (n : NoteChange)
  | PolyphonicKeyPressure (p : PolyphonicKeyPressure)
  | ControllerChange (c : ControllerChange)
  | ProgramChange (p : ProgramChange)
  | ChannelPressure (c : ChannelPressure)
  | PitchBend (p : PitchBend)
  | SystemExclusiveF0 (s : SystemExclusive)
  | SystemExclusiveF7 (s : SystemExclusive)
  | SequenceNumber (s : SequenceNumber)
  | Text (t : TextMessage)
  | Copyright (c : TextMessage)
  | SequenceTrackName (s : TextMessage)
  | InstrumentName (i : TextMessage)
  | Lyric (l : TextMessage)
  | Marker (m : TextMessage)
  | CuePoint (c : TextMessage)
  | ProgramName (p : TextMessage)
  | DeviceName (d : TextMessage)
  | MIDIChannelPrefix (m : MIDIChannelPrefix)
  | MIDIPort (m : MIDIPort)
  | EndOfTrack (e : EndOfTrack)
  | Tempo (t : Tempo)
  | SMPTEOffset (s : SMPTEOffset)
  | TimeSignature (t : TimeSignature)
  | KeySignature (k : KeySignature)
  | SequencerSpecificEvent (s : GenericMetaEvent)
  | UnknownMetaEvent (u : GenericMetaEvent)
  deriving DecidableEq

/-- The dispatch of `Event::import` on the status byte, lines 108–146 of
`track/event.rs`: the high nibble `(code_byte >> 4) & 0x0F` (on a `u8`:
`codeByte % 256 / 16`) selects the family, `0xF` refines on the low
nibble, and a meta event (`0xFF`) refines on the sub-type byte
`nextByte`. Unmatched nibble combinations fail with `UnknownEvent`. -/
def Event.dispatch (codeByte nextByte : Nat) (s : List Nat) :
    Except SMFError (Event × List Nat) :=
  match codeByte % 256 / 16 with
  | 8 =>
    match NoteChange.import s codeByte nextByte with
    | .error e => .error e
    | .ok (n, s1) => .ok (Event.NoteOff n, s1)
  | 9 =>
    match NoteChange.import s codeByte nextByte with
    | .error e => .error e
    | .ok (n, s1) => .ok (Event.NoteOn n, s1)
  | 10 =>
    match PolyphonicKeyPressure.import s codeByte nextByte with
    | .error e => .error e
    | .ok (p, s1) => .ok (Event.PolyphonicKeyPressure p, s1)
  | 11 =>
    match ControllerChange.import s codeByte nextByte with
    | .error e => .error e
    | .ok (c, s1) => .ok (Event.ControllerChange c, s1)
  | 12 => .ok (Event.ProgramChange (ProgramChange.import codeByte nextByte), s)
  | 13 => .ok (Event.ChannelPressure (ChannelPressure.import codeByte nextByte), s)
  | 14 =>
    match PitchBend.import s codeByte nextByte with
    | .error e => .error e
    | .ok (p, s1) => .ok (Event.PitchBend p, s1)
  | 15 =>
    match codeByte % 16 with
    | 0 =>
      match SystemExclusive.import s nextByte with
      | .error e => .error e
      | .ok (x, s1) => .ok (Event.SystemExclusiveF0 x, s1)
    | 7 =>
      match SystemExclusive.import s nextByte with
      | .error e => .error e
      | .ok (x, s1) => .ok (Event.SystemExclusiveF7 x, s1)
    | 15 =>
      match nextByte with
      | 0 =>
        match SequenceNumber.import s with
        | .error e => .error e
        | .ok (x, s1) => .ok (Event.SequenceNumber x, s1)
      | 1 =>
        match TextMessage.import s with
        | .error e => .error e
        | .ok (x, s1) => .ok (Event.Text x, s1)
      | 2 =>
        match TextMessage.import s with
        | .error e => .error e
        | .ok (x, s1) => .ok (Event.Copyright x, s1)
      | 3 =>
        match TextMessage.import s with
        | .error e => .error e
        | .ok (x, s1) => .ok (Event.SequenceTrackName x, s1)
      | 4 =>
        match TextMessage.import s with
        | .error e => .error e
        | .ok (x, s1) => .ok (Event.InstrumentName x, s1)
      | 5 =>
        match TextMessage.import s with
        | .error e => .error e
        | .ok (x, s1) => .ok (Event.Lyric x, s1)
      | 6 =>
        match TextMessage.import s with
        | .error e => .error e
        | .ok (x, s1) => .ok (Event.Marker x, s1)
      | 7 =>
        match TextMessage.import s with
        | .error e => .error e
        | .ok (x, s1) => .ok (Event.CuePoint x, s1)
      | 8 =>
        match TextMessage.import s with
        | .error e => .error e
        | .ok (x, s1) => .ok (Event.ProgramName x, s1)
      | 9 =>
        match TextMessage.import s with
        | .error e => .error e
        | .ok (x, s1) => .ok (Event.DeviceName x, s1)
      | 0x20 =>
        match MIDIChannelPrefix.import s with
        | .error e => .error e
        | .ok (x, s1) => .ok (Event.MIDIChannelPrefix x, s1)
      | 0x21 =>
        match MIDIPort.import s with
        | .error e => .error e
        | .ok (x, s1) => .ok (Event.MIDIPort x, s1)
      | 0x2F =>
        match EndOfTrack.import s with
        | .error e => .error e
        | .ok (x, s1) => .ok (Event.EndOfTrack x, s1)
      | 0x51 =>
        match Tempo.import s with
        | .error e => .error e
        | .ok (x, s1) => .ok (Event.Tempo x, s1)
      | 0x54 =>
        match SMPTEOffset.import s with
        | .error e => .error e
        | .ok (x, s1) => .ok (Event.SMPTEOffset x, s1)
      | 0x58 =>
        match TimeSignature.import s with
        | .error e => .error e
        | .ok (x, s1) => .ok (Event.TimeSignature x, s1)
      | 0x59 =>
        match KeySignature.import s with
        | .error e => .error e
        | .ok (x, s1) => .ok (Event.KeySignature x, s1)
      | _ =>
        match GenericMetaEvent.import s with
        | .error e => .error e
        | .ok (x, s1) => .ok (Event.UnknownMetaEvent x, s1)
    | _ => .error (.UnknownEvent codeByte)
  | _ => .error (.UnknownEvent codeByte)

/-- `Event::import`, lines 90–148 of `track/event.rs`: read one byte; if
its high bit is clear it is the first data byte of a running-status event
(`previousCodeByte` must be present, and becomes the effective status),
otherwise it is the status byte and one further byte is read as the first
data byte. The effective status byte is returned alongside the event. -/
def Event.import (s : List Nat) (previousCodeByte : Option Nat) :
    Except SMFError ((Event × Nat) × List Nat) :=
  match readU8 s with
  | .error e => .error e
  | .ok (b, s1) =>
    if b < 128 then
      match previousCodeByte with
      | some p =>
        match Event.dispatch p b s1 with
        | .error e => .error e
        | .ok (ev, s2) => .ok ((ev, p), s2)
      | none => .error .NoPreviousEvent
    else
      match readU8 s1 with
      | .error e => .error e
      | .ok (nextByte, s2) =>
        match Event.dispatch b nextByte s2 with
        | .error e => .error e
        | .ok (ev, s3) => .ok ((ev, b), s3)

/-- A delta time paired with an event (`TrackEvent` in `track/mod.rs`). -/
structure TrackEvent where
  deltaTime : Nat
  event : Event
  deriving DecidableEq

/-- `TrackEvent::import`: a delta-time VLV then one event, also returning
the status byte to carry forward. -/
def TrackEvent.import (s : List Nat) (previousCodeByte : Option Nat) :
    Except SMFError ((TrackEvent × Nat) × List Nat) :=
  match VLV.import s with
  | .error e => .error e
  | .ok (deltaTime, s1) =>
    match Event.import s1 previousCodeByte with
    | .error e => .error e
    | .ok ((event, codeByte), s2) =>
      .ok (({ deltaTime := deltaTime, event := event }, codeByte), s2)

end SMF
namespace SMF

theorem readU8_ok_length {s s' : List Nat} {b : Nat}
    (h : readU8 s = .ok (b, s')) : s'.length < s.length := by
  cases s with
  | nil => exact absurd h (by simp [readU8])
  | cons x t =>
    simp only [readU8, Except.ok.injEq, Prod.mk.injEq] at h
    rw [← h.2]
    simp

theorem readExact_ok_length {n : Nat} {s s' d : List Nat}
    (h : readExact n s = .ok (d, s')) : s'.length ≤ s.length := by
  unfold readExact at h
  split at h
  · simp only [Except.ok.injEq, Prod.mk.injEq] at h
    rw [← h.2]
    simp
  · exact absurd h (by simp)

theorem skipBytes_length (n : Nat) (s : List Nat) :
    (skipBytes n s).length ≤ s.length := by
  simp [skipBytes]

theorem readBeU16_ok_length {s s' : List Nat} {v : Nat}
    (h : readBeU16 s = .ok (v, s')) : s'.length < s.length := by
  unfold readBeU16 at h
  split at h
  · exact absurd h (by simp)
  · rename_i b1 s1 heq1
    split at h
    · exact absurd h (by simp)
    · rename_i b2 s2 heq2
      simp only [Except.ok.injEq, Prod.mk.injEq] at h
      rw [← h.2]
      exact lt_trans (readU8_ok_length heq2) (readU8_ok_length heq1)

theorem VLV.importLoop_ok_length {s s' : List Nat} {rl v val : Nat}
    (h : VLV.importLoop rl v s = .ok (val, s')) : s'.length < s.length := by
  induction s generalizing rl v val with
  | nil =>
    unfold VLV.importLoop at h
    split at h
    · exact absurd h (by simp)
    · exact absurd h (by simp)
  | cons b t ih =>
    unfold VLV.importLoop at h
    split at h
    · exact absurd h (by simp)
    · simp only at h
      split at h
      · simp only [Except.ok.injEq, Prod.mk.injEq] at h
        rw [← h.2]
        simp
      · exact lt_trans (ih h) (by simp)

end SMF
namespace SMF

theorem VLV.importSeededLoop_ok_length {s s' : List Nat} {rl v cb val : Nat}
    (h : VLV.importSeededLoop rl v cb s = .ok (val, s')) : s'.length ≤ s.length := by
  induction s generalizing rl v cb val with
  | nil =>
    unfold VLV.importSeededLoop at h
    split at h
    · exact absurd h (by simp)
    · split at h
      · simp only [Except.ok.injEq, Prod.mk.injEq] at h
        rw [← h.2]
      · exact absurd h (by simp)
  | cons b t ih =>
    unfold VLV.importSeededLoop at h
    split at h
    · exact absurd h (by simp)
    · split at h
      · simp only [Except.ok.injEq, Prod.mk.injEq] at h
        rw [← h.2]
      · simp only at h
        exact le_trans (le_of_lt (lt_of_le_of_lt (ih h) (by simp))) (le_refl _)

theorem vlv_import_ok_length {s s' : List Nat} {val : Nat}
    (h : VLV.import s = .ok (val, s')) : s'.length < s.length :=
  VLV.importLoop_ok_length h

theorem VLV.importSeeded_ok_length {s s' : List Nat} {fb val : Nat}
    (h : VLV.importSeeded s fb = .ok (val, s')) : s'.length ≤ s.length :=
  VLV.importSeededLoop_ok_length h

end SMF
namespace SMF

theorem sequenceNumber_import_ok_length {s s' : List Nat} {x : SequenceNumber}
    (h : SequenceNumber.import s = .ok (x, s')) : s'.length < s.length := by
  simp only [SequenceNumber.import] at h
  split at h
  · exact absurd h (by simp)
  · rename_i len s1 hv
    split at h
    · exact absurd h (by simp)
    · split at h
      · exact absurd h (by simp)
      · rename_i sn s2 hbe
        simp only [Except.ok.injEq, Prod.mk.injEq] at h
        have h2 := readBeU16_ok_length hbe
        have h1 := vlv_import_ok_length hv
        rw [← h.2]
        split
        · exact lt_of_le_of_lt (le_trans (skipBytes_length _ _) (le_of_lt h2)) h1
        · exact lt_trans h2 h1

end SMF
namespace SMF

theorem textMessage_import_ok_length {s s' : List Nat} {x : TextMessage}
    (h : TextMessage.import s = .ok (x, s')) : s'.length < s.length := by
  simp only [TextMessage.import] at h
  split at h
  · exact absurd h (by simp)
  · rename_i len s1 hv
    split at h
    · exact absurd h (by simp)
    · rename_i d s2 hr
      simp only [Except.ok.injEq, Prod.mk.injEq] at h
      rw [← h.2]
      exact lt_of_le_of_lt (readExact_ok_length hr) (vlv_import_ok_length hv)

theorem genericMetaEvent_import_ok_length {s s' : List Nat} {x : GenericMetaEvent}
    (h : GenericMetaEvent.import s = .ok (x, s')) : s'.length < s.length := by
  simp only [GenericMetaEvent.import] at h
  split at h
  · exact absurd h (by simp)
  · rename_i len s1 hv
    split at h
    · exact absurd h (by simp)
    · rename_i d s2 hr
      simp only [Except.ok.injEq, Prod.mk.injEq] at h
      rw [← h.2]
      exact lt_of_le_of_lt (readExact_ok_length hr) (vlv_import_ok_length hv)

theorem systemExclusive_import_ok_length {s s' : List Nat} {nb : Nat} {x : SystemExclusive}
    (h : SystemExclusive.import s nb = .ok (x, s')) : s'.length ≤ s.length := by
  simp only [SystemExclusive.import] at h
  split at h
  · exact absurd h (by simp)
  · rename_i len s1 hv
    split at h
    · exact absurd h (by simp)
    · rename_i d s2 hr
      simp only [Except.ok.injEq, Prod.mk.injEq] at h
      rw [← h.2]
      exact le_trans (readExact_ok_length hr) (VLV.importSeeded_ok_length hv)

theorem midiChannelPrefix_import_ok_length {s s' : List Nat} {x : MIDIChannelPrefix}
    (h : MIDIChannelPrefix.import s = .ok (x, s')) : s'.length < s.length := by
  simp only [MIDIChannelPrefix.import] at h
  split at h
  · exact absurd h (by simp)
  · rename_i len s1 hv
    split at h
    · exact absurd h (by simp)
    · split at h
      · exact absurd h (by simp)
      · rename_i b s2 hr
        simp only [Except.ok.injEq, Prod.mk.injEq] at h
        have h2 := readU8_ok_length hr
        have h1 := vlv_import_ok_length hv
        rw [← h.2]
        split
        · exact lt_of_le_of_lt (le_trans (skipBytes_length _ _) (le_of_lt h2)) h1
        · exact lt_trans h2 h1

theorem midiPort_import_ok_length {s s' : List Nat} {x : MIDIPort}
    (h : MIDIPort.import s = .ok (x, s')) : s'.length < s.length := by
  simp only [MIDIPort.import] at h
  split at h
  · exact absurd h (by simp)
  · rename_i len s1 hv
    split at h
    · exact absurd h (by simp)
    · split at h
      · exact absurd h (by simp)
      · rename_i b s2 hr
        simp only [Except.ok.injEq, Prod.mk.injEq] at h
        have h2 := readU8_ok_length hr
        have h1 := vlv_import_ok_length hv
        rw [← h.2]
        split
        · exact lt_of_le_of_lt (le_trans (skipBytes_length _ _) (le_of_lt h2)) h1
        · exact lt_trans h2 h1

theorem endOfTrack_import_ok_length {s s' : List Nat} {x : EndOfTrack}
    (h : EndOfTrack.import s = .ok (x, s')) : s'.length < s.length := by
  simp only [EndOfTrack.import] at h
  split at h
  · exact absurd h (by simp)
  · rename_i len s1 hv
    simp only [Except.ok.injEq, Prod.mk.injEq] at h
    have h1 := vlv_import_ok_length hv
    rw [← h.2]
    split
    · exact lt_of_le_of_lt (skipBytes_length _ _) h1
    · exact h1

end SMF
namespace SMF

theorem tempo_import_ok_length {s s' : List Nat} {x : Tempo}
    (h : Tempo.import s = .ok (x, s')) : s'.length < s.length := by
  simp only [Tempo.import] at h
  split at h
  · exact absurd h (by simp)
  · rename_i len s1 hv
    split at h
    · exact absurd h (by simp)
    · split at h
      · exact absurd h (by simp)
      · rename_i b1 s2 h1
        split at h
        · exact absurd h (by simp)
        · rename_i b2 s3 h2
          split at h
          · exact absurd h (by simp)
          · rename_i b3 s4 h3
            simp only [Except.ok.injEq, Prod.mk.injEq] at h
            have g1 := vlv_import_ok_length hv
            have g2 := readU8_ok_length h1
            have g3 := readU8_ok_length h2
            have g4 := readU8_ok_length h3
            rw [← h.2]
            split
            · exact lt_of_le_of_lt (skipBytes_length _ _) (by omega)
            · omega

theorem smpteOffset_import_ok_length {s s' : List Nat} {x : SMPTEOffset}
    (h : SMPTEOffset.import s = .ok (x, s')) : s'.length < s.length := by
  simp only [SMPTEOffset.import] at h
  split at h
  · exact absurd h (by simp)
  · rename_i len s1 hv
    split at h
    · exact absurd h (by simp)
    · split at h
      · exact absurd h (by simp)
      · rename_i b1 s2 h1
        split at h
        · exact absurd h (by simp)
        · rename_i b2 s3 h2
          split at h
          · exact absurd h (by simp)
          · rename_i b3 s4 h3
            split at h
            · exact absurd h (by simp)
            · rename_i b4 s5 h4
              split at h
              · exact absurd h (by simp)
              · rename_i b5 s6 h5
                simp only [Except.ok.injEq, Prod.mk.injEq] at h
                have g1 := vlv_import_ok_length hv
                have g2 := readU8_ok_length h1
                have g3 := readU8_ok_length h2
                have g4 := readU8_ok_length h3
                have g5 := readU8_ok_length h4
                have g6 := readU8_ok_length h5
                rw [← h.2]
                split
                · exact lt_of_le_of_lt (skipBytes_length _ _) (by omega)
                · omega

theorem timeSignature_import_ok_length {s s' : List Nat} {x : TimeSignature}
    (h : TimeSignature.import s = .ok (x, s')) : s'.length < s.length := by
  simp only [TimeSignature.import] at h
  split at h
  · exact absurd h (by simp)
  · rename_i len s1 hv
    split at h
    · exact absurd h (by simp)
    · split at h
      · exact absurd h (by simp)
      · rename_i b1 s2 h1
        split at h
        · exact absurd h (by simp)
        · rename_i b2 s3 h2
          split at h
          · exact absurd h (by simp)
          · rename_i b3 s4 h3
            split at h
            · exact absurd h (by simp)
            · rename_i b4 s5 h4
              simp only [Except.ok.injEq, Prod.mk.injEq] at h
              have g1 := vlv_import_ok_length hv
              have g2 := readU8_ok_length h1
              have g3 := readU8_ok_length h2
              have g4 := readU8_ok_length h3
              have g5 := readU8_ok_length h4
              rw [← h.2]
              split
              · exact lt_of_le_of_lt (skipBytes_length _ _) (by omega)
              · omega

theorem key_import_ok_length {s s' : List Nat} {k : Key}
    (h : Key.import s = .ok (k, s')) : s'.length < s.length := by
  simp only [Key.import] at h
  split at h
  · exact absurd h (by simp)
  · rename_i b s1 hr
    split at h
    · simp only [Except.ok.injEq, Prod.mk.injEq] at h
      rw [← h.2]
      exact readU8_ok_length hr
    · simp only [Except.ok.injEq, Prod.mk.injEq] at h
      rw [← h.2]
      exact readU8_ok_length hr
    · exact absurd h (by simp)

theorem keySignature_import_ok_length {s s' : List Nat} {x : KeySignature}
    (h : KeySignature.import s = .ok (x, s')) : s'.length < s.length := by
  simp only [KeySignature.import] at h
  split at h
  · exact absurd h (by simp)
  · rename_i len s1 hv
    split at h
    · exact absurd h (by simp)
    · split at h
      · exact absurd h (by simp)
      · rename_i b s2 h1
        split at h
        · exact absurd h (by simp)
        · rename_i k s3 h2
          simp only [Except.ok.injEq, Prod.mk.injEq] at h
          have g1 := vlv_import_ok_length hv
          have g2 := readU8_ok_length h1
          have g3 := key_import_ok_length h2
          rw [← h.2]
          split
          · exact lt_of_le_of_lt (skipBytes_length _ _) (by omega)
          · omega

end SMF
namespace SMF

theorem noteChange_import_ok_length {s s' : List Nat} {cb nb : Nat} {x : NoteChange}
    (h : NoteChange.import s cb nb = .ok (x, s')) : s'.length < s.length := by
  simp only [NoteChange.import] at h
  split at h
  · exact Except.noConfusion h
  · rename_i b s1 hr
    simp only [Except.ok.injEq, Prod.mk.injEq] at h
    rw [← h.2]
    exact readU8_ok_length hr

theorem polyphonicKeyPressure_import_ok_length {s s' : List Nat} {cb nb : Nat}
    {x : PolyphonicKeyPressure}
    (h : PolyphonicKeyPressure.import s cb nb = .ok (x, s')) : s'.length < s.length := by
  simp only [PolyphonicKeyPressure.import] at h
  split at h
  · exact Except.noConfusion h
  · rename_i b s1 hr
    simp only [Except.ok.injEq, Prod.mk.injEq] at h
    rw [← h.2]
    exact readU8_ok_length hr

theorem controllerChange_import_ok_length {s s' : List Nat} {cb nb : Nat}
    {x : ControllerChange}
    (h : ControllerChange.import s cb nb = .ok (x, s')) : s'.length < s.length := by
  simp only [ControllerChange.import] at h
  split at h
  · exact Except.noConfusion h
  · rename_i b s1 hr
    simp only [Except.ok.injEq, Prod.mk.injEq] at h
    rw [← h.2]
    exact readU8_ok_length hr

theorem pitchBend_import_ok_length {s s' : List Nat} {cb nb : Nat} {x : PitchBend}
    (h : PitchBend.import s cb nb = .ok (x, s')) : s'.length < s.length := by
  simp only [PitchBend.import] at h
  split at h
  · exact Except.noConfusion h
  · rename_i b s1 hr
    simp only [Except.ok.injEq, Prod.mk.injEq] at h
    rw [← h.2]
    exact readU8_ok_length hr

set_option maxHeartbeats 2000000 in
theorem Event.dispatch_ok_length {s s' : List Nat} {cb nb : Nat} {ev : Event}
    (h : Event.dispatch cb nb s = .ok (ev, s')) : s'.length ≤ s.length := by
  simp only [Event.dispatch] at h
  repeat' split at h
  all_goals try exact Except.noConfusion h
  all_goals simp only [Except.ok.injEq, Prod.mk.injEq] at h
  all_goals obtain ⟨hev, hs⟩ := h
  all_goals subst hs
  all_goals try exact le_refl _
  all_goals rename_i x s1 heq
  all_goals first
    | exact le_of_lt (noteChange_import_ok_length heq)
    | exact le_of_lt (polyphonicKeyPressure_import_ok_length heq)
    | exact le_of_lt (controllerChange_import_ok_length heq)
    | exact le_of_lt (pitchBend_import_ok_length heq)
    | exact systemExclusive_import_ok_length heq
    | exact le_of_lt (sequenceNumber_import_ok_length heq)
    | exact le_of_lt (textMessage_import_ok_length heq)
    | exact le_of_lt (midiChannelPrefix_import_ok_length heq)
    | exact le_of_lt (midiPort_import_ok_length heq)
    | exact le_of_lt (endOfTrack_import_ok_length heq)
    | exact le_of_lt (tempo_import_ok_length heq)
    | exact le_of_lt (smpteOffset_import_ok_length heq)
    | exact le_of_lt (timeSignature_import_ok_length heq)
    | exact le_of_lt (keySignature_import_ok_length heq)
    | exact le_of_lt (genericMetaEvent_import_ok_length heq)

theorem event_import_ok_length {s s' : List Nat} {prev : Option Nat} {ev : Event} {cb : Nat}
    (h : Event.import s prev = .ok ((ev, cb), s')) : s'.length < s.length := by
  simp only [Event.import] at h
  split at h
  · exact Except.noConfusion h
  · rename_i b s1 hr1
    split at h
    · split at h
      · split at h
        · exact Except.noConfusion h
        · rename_i x s2 hd
          simp only [Except.ok.injEq, Prod.mk.injEq] at h
          rw [← h.2]
          exact lt_of_le_of_lt (Event.dispatch_ok_length hd) (readU8_ok_length hr1)
      · exact Except.noConfusion h
    · split at h
      · exact Except.noConfusion h
      · rename_i nb s2 hr2
        split at h
        · exact Except.noConfusion h
        · rename_i x s3 hd
          simp only [Except.ok.injEq, Prod.mk.injEq] at h
          rw [← h.2]
          exact lt_of_le_of_lt (Event.dispatch_ok_length hd)
            (lt_trans (readU8_ok_length hr2) (readU8_ok_length hr1))

theorem trackEvent_import_ok_length {s s' : List Nat} {prev : Option Nat}
    {te : TrackEvent} {cb : Nat}
    (h : TrackEvent.import s prev = .ok ((te, cb), s')) : s'.length < s.length := by
  simp only [TrackEvent.import] at h
  split at h
  · exact Except.noConfusion h
  · rename_i dt s1 hv
    split at h
    · exact Except.noConfusion h
    all_goals
      rename_i he
      simp only [Except.ok.injEq, Prod.mk.injEq] at h
      rw [← h.2]
      exact lt_trans (event_import_ok_length he) (vlv_import_ok_length hv)

end SMF
namespace SMF

/-- The event loop of `SMFTrack::import` (lines 24–49 of `track/mod.rs`):
while `read_bytes < length`, decode one `TrackEvent` with the current
running status, account the consumed bytes (`location_now -
previous_location`, here the drop in stream length), and carry the
returned status byte forward. Errors of the inner decode propagate
unchanged via `?`. -/
def SMFTrack.importEvents (budget consumed : Nat) (prev : Option Nat) (s : List Nat) :
    Except SMFError (List TrackEvent × List Nat) :=
  if consumed < budget then
    match h : TrackEvent.import s prev with
    | .error e => .error e
    | .ok ((te, cb), s') =>
      match SMFTrack.importEvents budget (consumed + (s.length - s'.length)) (some cb) s' with
      | .error e => .error e
      | .ok (l, sFin) => .ok (te :: l, sFin)
  else .ok ([], s)
termination_by s.length
decreasing_by exact trackEvent_import_ok_length h

/-- An `MTrk` chunk: declared byte length and decoded events. -/
structure SMFTrack where
  length : Nat
  trackEvents : List TrackEvent
  deriving DecidableEq

/-- `check_magic_number(b"MTrk")`: four bytes compared against
`4D 54 72 6B`. -/
def checkMagicMTrk (s : List Nat) : Except SMFError (List Nat) :=
  match s with
  | m :: t :: r :: k :: rest =>
    if m % 256 = 77 ∧ t % 256 = 84 ∧ r % 256 = 114 ∧ k % 256 = 107 then .ok rest
    else .error .MagicNumber
  | _ => .error .IOError

/-- `SMFTrack::import`: magic tag, big-endian 32-bit declared length,
then the event loop starting with `read_bytes = 0` and no previous code
byte. -/
def SMFTrack.import (s : List Nat) : Except SMFError (SMFTrack × List Nat) :=
  match checkMagicMTrk s with
  | .error e => .error e
  | .ok s1 =>
    match readBeU32 s1 with
    | .error e => .error e
    | .ok (length, s2) =>
      match SMFTrack.importEvents length 0 none s2 with
      | .error e => .error e
      | .ok (trackEvents, s3) =>
        .ok ({ length := length, trackEvents := trackEvents }, s3)

/-- The successful runs of the event loop: either the byte budget is
already exhausted and no event is decoded, or one `TrackEvent` decodes
successfully and the rest of the run continues with the updated byte
count and running status. `RunOk budget consumed prev s l sFin` holds
exactly of the complete ordered sequences of successfully decoded
records. -/
inductive RunOk : Nat → Nat → Option Nat → List Nat → List TrackEvent → List Nat → Prop
  | done {budget consumed : Nat} {prev : Option Nat} {s : List Nat}
      (hstop : ¬ consumed < budget) : RunOk budget consumed prev s [] s
  | step {budget consumed : Nat} {prev : Option Nat} {s s' sFin : List Nat}
      {te : TrackEvent} {cb : Nat} {l : List TrackEvent}
      (hgo : consumed < budget)
      (hok : TrackEvent.import s prev = .ok ((te, cb), s'))
      (hrest : RunOk budget (consumed + (s.length - s'.length)) (some cb) s' l sFin) :
      RunOk budget consumed prev s (te :: l) sFin

/-- The failing runs of the event loop: some prefix of records decodes
successfully and then the next `TrackEvent` decode fails with `e`.
`RunErr budget consumed prev s e` holds exactly when the first failing
inner decode step produces `e`. -/
inductive RunErr : Nat → Nat → Option Nat → List Nat → SMFError → Prop
  | here {budget consumed : Nat} {prev : Option Nat} {s : List Nat} {e : SMFError}
      (hgo : consumed < budget)
      (herr : TrackEvent.import s prev = .error e) : RunErr budget consumed prev s e
  | step {budget consumed : Nat} {prev : Option Nat} {s s' : List Nat}
      {te : TrackEvent} {cb : Nat} {e : SMFError}
      (hgo : consumed < budget)
      (hok : TrackEvent.import s prev = .ok ((te, cb), s'))
      (hrest : RunErr budget (consumed + (s.length - s'.length)) (some cb) s' e) :
      RunErr budget consumed prev s e


/-- Modelled from the spec: `Event::export` and `TrackEvent::export` are
`unimplemented!()` stubs in the source (`track/event.rs` lines 150–154,
`track/mod.rs` lines 84–88), so the encoder for a delta time followed by
an EndOfTrack meta event is taken from the spec's wire description
(§4.2/§6/§8): the delta-time VLV, the meta status byte `0xFF`, the
sub-type `0x2F`, and a VLV declared length of 0 — the VLVs themselves
written by the source's `VLV::export`. -/
def TrackEvent.exportEndOfTrack (deltaTime : Nat) : Except SMFError (List Nat) :=
  match VLV.export deltaTime with
  | .error e => .error e
  | .ok deltaBytes =>
    match VLV.export 0 with
    | .error e => .error e
    | .ok lengthBytes => .ok (deltaBytes ++ 0xFF :: 0x2F :: lengthBytes)

end SMF
namespace SMF

theorem SMFTrack.importEvents_stop {budget consumed : Nat} {prev : Option Nat}
    {s : List Nat} (hstop : ¬ consumed < budget) :
    SMFTrack.importEvents budget consumed prev s = .ok ([], s) := by
  rw [SMFTrack.importEvents.eq_def, if_neg hstop]

theorem SMFTrack.importEvents_error {budget consumed : Nat} {prev : Option Nat}
    {s : List Nat} {e : SMFError} (hgo : consumed < budget)
    (herr : TrackEvent.import s prev = .error e) :
    SMFTrack.importEvents budget consumed prev s = .error e := by
  rw [SMFTrack.importEvents.eq_def, if_pos hgo]
  split
  · rename_i e2 heq
    rw [herr] at heq
    cases heq
    rfl
  · rename_i te2 cb2 s2 heq
    rw [herr] at heq
    exact Except.noConfusion heq

theorem SMFTrack.importEvents_step_ok {budget consumed : Nat} {prev : Option Nat}
    {s s' sFin : List Nat} {te : TrackEvent} {cb : Nat} {l : List TrackEvent}
    (hgo : consumed < budget)
    (hok : TrackEvent.import s prev = .ok ((te, cb), s'))
    (hrec : SMFTrack.importEvents budget (consumed + (s.length - s'.length)) (some cb) s' =
      .ok (l, sFin)) :
    SMFTrack.importEvents budget consumed prev s = .ok (te :: l, sFin) := by
  rw [SMFTrack.importEvents.eq_def, if_pos hgo]
  split
  · rename_i e heq
    rw [hok] at heq
    exact Except.noConfusion heq
  · rename_i te2 cb2 s2 heq
    rw [hok] at heq
    simp only [Except.ok.injEq, Prod.mk.injEq] at heq
    obtain ⟨⟨hte, hcb⟩, hs⟩ := heq
    subst hte
    subst hcb
    subst hs
    rw [hrec]

theorem SMFTrack.importEvents_step_error {budget consumed : Nat} {prev : Option Nat}
    {s s' : List Nat} {te : TrackEvent} {cb : Nat} {e : SMFError}
    (hgo : consumed < budget)
    (hok : TrackEvent.import s prev = .ok ((te, cb), s'))
    (hrec : SMFTrack.importEvents budget (consumed + (s.length - s'.length)) (some cb) s' =
      .error e) :
    SMFTrack.importEvents budget consumed prev s = .error e := by
  rw [SMFTrack.importEvents.eq_def, if_pos hgo]
  split
  · rename_i e2 heq
    rw [hok] at heq
    exact Except.noConfusion heq
  · rename_i te2 cb2 s2 heq
    rw [hok] at heq
    simp only [Except.ok.injEq, Prod.mk.injEq] at heq
    obtain ⟨⟨hte, hcb⟩, hs⟩ := heq
    subst hte
    subst hcb
    subst hs
    rw [hrec]

theorem SMFTrack.importEventsRunAux :
    ∀ (n budget consumed : Nat) (prev : Option Nat) (s : List Nat), s.length ≤ n →
      (∀ l sFin, SMFTrack.importEvents budget consumed prev s = .ok (l, sFin) →
        RunOk budget consumed prev s l sFin) ∧
      (∀ e, SMFTrack.importEvents budget consumed prev s = .error e →
        RunErr budget consumed prev s e) := by
  intro n
  induction n with
  | zero =>
    intro budget consumed prev s hlen
    have hs : s = [] := List.length_eq_zero.mp (Nat.le_zero.mp hlen)
    subst hs
    by_cases hgo : consumed < budget
    · have herr : TrackEvent.import [] prev = .error .IOError := rfl
      have hloop := SMFTrack.importEvents_error hgo herr
      constructor
      · intro l sFin hok
        rw [hloop] at hok
        exact Except.noConfusion hok
      · intro e he
        rw [hloop] at he
        cases he
        exact RunErr.here hgo herr
    · have hloop := @SMFTrack.importEvents_stop budget consumed prev [] hgo
      constructor
      · intro l sFin hok
        rw [hloop] at hok
        simp only [Except.ok.injEq, Prod.mk.injEq] at hok
        rw [← hok.1, ← hok.2]
        exact RunOk.done hgo
      · intro e he
        rw [hloop] at he
        exact Except.noConfusion he
  | succ m ih =>
    intro budget consumed prev s hlen
    by_cases hgo : consumed < budget
    · cases hte : TrackEvent.import s prev with
      | error e0 =>
        have hloop := SMFTrack.importEvents_error hgo hte
        constructor
        · intro l sFin hok
          rw [hloop] at hok
          exact Except.noConfusion hok
        · intro e he
          rw [hloop] at he
          cases he
          exact RunErr.here hgo hte
      | ok res =>
        obtain ⟨⟨te, cb⟩, s'⟩ := res
        have hlt := trackEvent_import_ok_length hte
        have hrec := ih budget (consumed + (s.length - s'.length)) (some cb) s' (by omega)
        constructor
        · intro l sFin hok
          cases hrecv : SMFTrack.importEvents budget (consumed + (s.length - s'.length))
              (some cb) s' with
          | error e1 =>
            rw [SMFTrack.importEvents_step_error hgo hte hrecv] at hok
            exact Except.noConfusion hok
          | ok p =>
            obtain ⟨l1, sFin1⟩ := p
            rw [SMFTrack.importEvents_step_ok hgo hte hrecv] at hok
            simp only [Except.ok.injEq, Prod.mk.injEq] at hok
            rw [← hok.1, ← hok.2]
            exact RunOk.step hgo hte (hrec.1 l1 sFin1 hrecv)
        · intro e he
          cases hrecv : SMFTrack.importEvents budget (consumed + (s.length - s'.length))
              (some cb) s' with
          | error e1 =>
            rw [SMFTrack.importEvents_step_error hgo hte hrecv] at he
            cases he
            exact RunErr.step hgo hte (hrec.2 _ hrecv)
          | ok p =>
            obtain ⟨l1, sFin1⟩ := p
            rw [SMFTrack.importEvents_step_ok hgo hte hrecv] at he
            exact Except.noConfusion he
    · have hloop := @SMFTrack.importEvents_stop budget consumed prev s hgo
      constructor
      · intro l sFin hok
        rw [hloop] at hok
        simp only [Except.ok.injEq, Prod.mk.injEq] at hok
        rw [← hok.1, ← hok.2]
        exact RunOk.done hgo
      · intro e he
        rw [hloop] at he
        exact Except.noConfusion he

end SMF
namespace SMF

/-- Claim C1: a Tempo meta event with declared VLV length 2 fails with
`UnexpectedMetaEventLength(2)`, and with declared length 5 succeeds
reading the three value bytes big-endian — but the source then seeks
`length - 1 = 4` bytes forward instead of the `length - 3 = 2` surplus
bytes the claim states: from the payload `05 01 02 03 63 62 61 60 5F`
the cursor ends two bytes further than claimed ( `[95]` remains instead
of `[97, 96, 95]`). -/
theorem tempo_meta_declared_length_behavior :
    Tempo.import [2, 9, 9, 9] = .error (.UnexpectedMetaEventLength 2) ∧
    Tempo.import [5, 1, 2, 3, 99, 98, 97, 96, 95] = .ok ({ value := 66051 }, [95]) ∧
    Tempo.import [5, 1, 2, 3, 99, 98, 97, 96, 95] ≠
      .ok ({ value := 66051 }, [97, 96, 95]) :=
  ⟨by decide, by decide, by decide⟩

/-- Claim C3: encoding a delta-time VLV of 0 followed by an EndOfTrack
meta event produces exactly `00 FF 2F 00`, and decoding those bytes back
(with no previous status) yields the same record: delta time 0, event
EndOfTrack, carried status byte `0xFF`, stream fully consumed. -/
theorem endOfTrack_export_roundtrip :
    TrackEvent.exportEndOfTrack 0 = .ok [0x00, 0xFF, 0x2F, 0x00] ∧
    TrackEvent.import [0x00, 0xFF, 0x2F, 0x00] none =
      .ok (({ deltaTime := 0, event := Event.EndOfTrack {} }, 0xFF), []) :=
  ⟨by decide, by decide⟩

end SMF
namespace SMF

/-- Claim C5: when the first byte of the stream has its high bit clear,
decoding with no previous status fails with `NoPreviousEvent`; with a
previous status `p` present, decoding dispatches on `p` as the effective
status with the byte just read as the first data byte, reading no
replacement status byte from the stream, and carries `p` forward. -/
theorem running_status_resolution :
    ∀ (b : Nat) (s : List Nat), b % 256 < 128 →
      Event.import (b :: s) none = .error .NoPreviousEvent ∧
      ∀ p : Nat, Event.import (b :: s) (some p) =
        Except.map (fun x => ((x.1, p), x.2)) (Event.dispatch p (b % 256) s) := by
  intro b s hb
  constructor
  · simp [Event.import, readU8, hb]
  · intro p
    simp only [Event.import, readU8, if_pos hb]
    cases hd : Event.dispatch p (b % 256) s with
    | error e => simp [Except.map]
    | ok x =>
      obtain ⟨ev, s2⟩ := x
      simp [Except.map]

/-- Claim C5 witness at `b = 47`, `s = []`, `p = 0x90`. -/
theorem running_status_resolution_witness :
    Event.import [47] none = .error .NoPreviousEvent ∧
    Event.import [47] (some 0x90) =
      Except.map (fun x => ((x.1, 0x90), x.2)) (Event.dispatch 0x90 (47 % 256) []) :=
  ⟨(running_status_resolution 47 [] (by decide)).1,
    (running_status_resolution 47 [] (by decide)).2 0x90⟩

/-- Claim C9: a successful event decode carries forward a status byte
with the high bit set, equal to the byte dispatched on: the explicitly
read status byte when the stream's first byte has its high bit set
(including the markers `0xFF`, `0xF0`, `0xF7` of meta and sysex events,
which therefore overwrite rather than clear the running status), and the
inherited previous status byte otherwise. -/
theorem carried_status_byte_invariant :
    ∀ (s s' : List Nat) (prior : Option Nat) (ev : Event) (cb : Nat),
      Event.import s prior = .ok ((ev, cb), s') →
      (∀ p, prior = some p → 128 ≤ p % 256 ∧ p < 256) →
      128 ≤ cb % 256 ∧
        ∃ b t, s = b :: t ∧
          (if 128 ≤ b % 256 then cb = b % 256 else prior = some cb) := by
  intro s s' prior ev cb h hprior
  cases s with
  | nil => cases prior <;> simp [Event.import, readU8] at h
  | cons b t =>
    by_cases hb : b % 256 < 128
    · cases prior with
      | none => simp [Event.import, readU8, hb] at h
      | some p =>
        simp only [Event.import, readU8, if_pos hb] at h
        cases hd : Event.dispatch p (b % 256) t with
        | error e =>
          rw [hd] at h
          exact Except.noConfusion h
        | ok x =>
          obtain ⟨ev2, s2⟩ := x
          rw [hd] at h
          simp only [Except.ok.injEq, Prod.mk.injEq] at h
          obtain ⟨⟨hev, hcb⟩, hs⟩ := h
          obtain ⟨hp1, hp2⟩ := hprior p rfl
          refine ⟨by omega, b, t, rfl, ?_⟩
          rw [if_neg (by omega)]
          rw [← hcb]
    · simp only [Event.import, readU8, if_neg hb] at h
      cases t with
      | nil => simp only [readU8] at h; exact Except.noConfusion h
      | cons nb t2 =>
        simp only [readU8] at h
        cases hd : Event.dispatch (b % 256) (nb % 256) t2 with
        | error e =>
          rw [hd] at h
          exact Except.noConfusion h
        | ok x =>
          obtain ⟨ev2, s2⟩ := x
          rw [hd] at h
          simp only [Except.ok.injEq, Prod.mk.injEq] at h
          obtain ⟨⟨hev, hcb⟩, hs⟩ := h
          refine ⟨by omega, b, nb :: t2, rfl, ?_⟩
          rw [if_pos (by omega)]
          omega

/-- Claim C9 witness: decoding the meta event `FF 2F 00` with no previous
status carries forward `0xFF` itself. -/
theorem carried_status_byte_invariant_witness :
    128 ≤ (255 : Nat) % 256 ∧
      ∃ b t, ([255, 47, 0] : List Nat) = b :: t ∧
        (if 128 ≤ b % 256 then (255 : Nat) = b % 256 else (none : Option Nat) = some 255) :=
  carried_status_byte_invariant [255, 47, 0] [] none (Event.EndOfTrack {}) 255
    (by decide) (by intro p hp; exact Option.noConfusion hp)

end SMF
namespace SMF
theorem Event.dispatch_nibble8 (cb nb : Nat) (s : List Nat) (h : cb % 256 / 16 = 8) :
    Event.dispatch cb nb s =
      match NoteChange.import s cb nb with
      | .error e => .error e
      | .ok (n, s1) => .ok (Event.NoteOff n, s1) := by
  unfold Event.dispatch
  rw [h]

theorem Event.dispatch_nibble9 (cb nb : Nat) (s : List Nat) (h : cb % 256 / 16 = 9) :
    Event.dispatch cb nb s =
      match NoteChange.import s cb nb with
      | .error e => .error e
      | .ok (n, s1) => .ok (Event.NoteOn n, s1) := by
  unfold Event.dispatch
  rw [h]

theorem Event.dispatch_nibble14 (cb nb : Nat) (s : List Nat) (h : cb % 256 / 16 = 14) :
    Event.dispatch cb nb s =
      match PitchBend.import s cb nb with
      | .error e => .error e
      | .ok (p, s1) => .ok (Event.PitchBend p, s1) := by
  unfold Event.dispatch
  rw [h]

/-- Claim C6: a decoded PitchBend event's value field is
`second_data_byte * 256 + first_data_byte` — the byte read second is the
most-significant byte — on both the explicit-status and the
running-status path; by contrast Tempo's 24-bit value and
SequenceNumber's 16-bit field combine their bytes big-endian (the byte
read first is most significant). -/
theorem pitchBend_value_byte_order :
    ∀ (ch d1 d2 : Nat) (s : List Nat) (prior : Option Nat), ch < 16 → d1 < 256 → d2 < 256 →
      (Event.import ((224 + ch) :: d1 :: d2 :: s) prior =
        .ok ((Event.PitchBend { channel := ch, value := d2 * 256 + d1 }, 224 + ch), s)) ∧
      (d1 < 128 →
        Event.import (d1 :: d2 :: s) (some (224 + ch)) =
          .ok ((Event.PitchBend { channel := ch, value := d2 * 256 + d1 }, 224 + ch), s)) ∧
      (∀ b1 b2 b3 : Nat, b1 < 256 → b2 < 256 → b3 < 256 →
        Tempo.import (3 :: b1 :: b2 :: b3 :: s) =
          .ok ({ value := b1 * 65536 + b2 * 256 + b3 }, s)) ∧
      (∀ b1 b2 : Nat, b1 < 256 → b2 < 256 →
        SequenceNumber.import (2 :: b1 :: b2 :: s) =
          .ok ({ sequenceNumber := b1 * 256 + b2 }, s)) := by
  intro ch d1 d2 s prior hch hd1 hd2
  have hmask : (224 + ch) % 256 = 224 + ch := Nat.mod_eq_of_lt (by omega)
  have hchn : (224 + ch) % 16 = ch := by omega
  refine ⟨?_, ?_, ?_, ?_⟩
  · simp only [Event.import, readU8, hmask]
    rw [if_neg (by omega)]
    rw [Event.dispatch_nibble14 (224 + ch) (d1 % 256) (d2 :: s) (by omega)]
    simp only [PitchBend.import, readU8, hchn, Nat.mod_eq_of_lt hd1, Nat.mod_eq_of_lt hd2]
  · intro hrun
    simp only [Event.import, readU8]
    rw [if_pos (by omega)]
    rw [Event.dispatch_nibble14 (224 + ch) (d1 % 256) (d2 :: s) (by omega)]
    simp only [PitchBend.import, readU8, hchn, Nat.mod_eq_of_lt hd1, Nat.mod_eq_of_lt hd2]
  · intro b1 b2 b3 h1 h2 h3
    have hv : VLV.import (3 :: b1 :: b2 :: b3 :: s) = .ok (3, b1 :: b2 :: b3 :: s) := by
      simp [VLV.import, VLV.importLoop]
    simp only [Tempo.import, hv, readU8, Nat.mod_eq_of_lt h1, Nat.mod_eq_of_lt h2,
      Nat.mod_eq_of_lt h3]
    norm_num
  · intro b1 b2 h1 h2
    have hv : VLV.import (2 :: b1 :: b2 :: s) = .ok (2, b1 :: b2 :: s) := by
      simp [VLV.import, VLV.importLoop]
    simp only [SequenceNumber.import, hv, readBeU16, readU8, Nat.mod_eq_of_lt h1,
      Nat.mod_eq_of_lt h2]
    norm_num

/-- Claim C6 witness on channel 2, data bytes 10 then 20, and the
contrasting Tempo bytes `01 02 03` and SequenceNumber bytes `01 02`. -/
theorem pitchBend_value_byte_order_witness :
    (Event.import [226, 10, 20] none =
      .ok ((Event.PitchBend { channel := 2, value := 5130 }, 226), [])) ∧
    (Event.import [10, 20] (some 226) =
      .ok ((Event.PitchBend { channel := 2, value := 5130 }, 226), [])) ∧
    (Tempo.import [3, 1, 2, 3] = .ok ({ value := 66051 }, [])) ∧
    (SequenceNumber.import [2, 1, 2] = .ok ({ sequenceNumber := 258 }, [])) := by
  have h := pitchBend_value_byte_order 2 10 20 [] none (by decide) (by decide) (by decide)
  exact ⟨h.1, h.2.1 (by decide), h.2.2.1 1 2 3 (by decide) (by decide) (by decide),
    h.2.2.2 1 2 (by decide) (by decide)⟩

/-- Claim C4: after an explicit NoteOn on channel `ch`, decoding a second
NoteOn whose status byte is omitted (running status, with the previous
status byte carried in) gives exactly the same result as decoding the
variant in which the status byte is re-sent explicitly: the same NoteOn
event, the same carried status byte, the same remaining stream. -/
theorem noteOn_running_status_equiv :
    ∀ (ch k1 v1 k2 v2 : Nat) (s : List Nat),
      ch < 16 → k1 < 256 → v1 < 256 → k2 < 128 → v2 < 256 →
      (Event.import ((144 + ch) :: k1 :: v1 :: k2 :: v2 :: s) none =
        .ok ((Event.NoteOn { channel := ch, key := k1, velocity := v1 }, 144 + ch),
          k2 :: v2 :: s)) ∧
      (Event.import (k2 :: v2 :: s) (some (144 + ch)) =
        Event.import ((144 + ch) :: k2 :: v2 :: s) (some (144 + ch))) ∧
      (Event.import (k2 :: v2 :: s) (some (144 + ch)) =
        .ok ((Event.NoteOn { channel := ch, key := k2, velocity := v2 }, 144 + ch), s)) := by
  intro ch k1 v1 k2 v2 s hch hk1 hv1 hk2 hv2
  have hmask : (144 + ch) % 256 = 144 + ch := Nat.mod_eq_of_lt (by omega)
  have hchn : (144 + ch) % 16 = ch := by omega
  have hrun : Event.import (k2 :: v2 :: s) (some (144 + ch)) =
      .ok ((Event.NoteOn { channel := ch, key := k2, velocity := v2 }, 144 + ch), s) := by
    simp only [Event.import, readU8]
    rw [if_pos (by omega)]
    rw [Event.dispatch_nibble9 (144 + ch) (k2 % 256) (v2 :: s) (by omega)]
    simp only [NoteChange.import, readU8, hchn,
      Nat.mod_eq_of_lt (show k2 < 256 by omega), Nat.mod_eq_of_lt hv2]
  have hexp : Event.import ((144 + ch) :: k2 :: v2 :: s) (some (144 + ch)) =
      .ok ((Event.NoteOn { channel := ch, key := k2, velocity := v2 }, 144 + ch), s) := by
    simp only [Event.import, readU8, hmask]
    rw [if_neg (by omega)]
    rw [Event.dispatch_nibble9 (144 + ch) (k2 % 256) (v2 :: s) (by omega)]
    simp only [NoteChange.import, readU8, hchn,
      Nat.mod_eq_of_lt (show k2 < 256 by omega), Nat.mod_eq_of_lt hv2]
  refine ⟨?_, hrun.trans hexp.symm, hrun⟩
  simp only [Event.import, readU8, hmask]
  rw [if_neg (by omega)]
  rw [Event.dispatch_nibble9 (144 + ch) (k1 % 256) (v1 :: k2 :: v2 :: s) (by omega)]
  simp only [NoteChange.import, readU8, hchn, Nat.mod_eq_of_lt hk1, Nat.mod_eq_of_lt hv1]

/-- Claim C4 witness: two NoteOn events on channel 0, keys 60 and 62,
velocity 100. -/
theorem noteOn_running_status_equiv_witness :
    (Event.import [144, 60, 100, 62, 100] none =
      .ok ((Event.NoteOn { channel := 0, key := 60, velocity := 100 }, 144),
        [62, 100])) ∧
    (Event.import [62, 100] (some 144) =
      Event.import [144, 62, 100] (some 144)) ∧
    (Event.import [62, 100] (some 144) =
      .ok ((Event.NoteOn { channel := 0, key := 62, velocity := 100 }, 144), [])) :=
  noteOn_running_status_equiv 0 60 100 62 100 []
    (by decide) (by decide) (by decide) (by decide) (by decide)
end SMF
namespace SMF
theorem VLV.importLoop_last {rl v b : Nat} {s : List Nat} (h4 : rl + 1 ≤ 4)
    (hb : b % 256 < 128) :
    VLV.importLoop rl v (b :: s) = .ok (v * 128 + b % 128, s) := by
  conv_lhs => simp only [VLV.importLoop]
  rw [if_neg (by omega), if_pos hb, Nat.mod_mod_of_dvd b (by norm_num : (128:Nat) ∣ 256)]

theorem VLV.importLoop_cont {rl v b : Nat} {s : List Nat} (h4 : rl + 1 ≤ 4)
    (hb : ¬ b % 256 < 128) :
    VLV.importLoop rl v (b :: s) = VLV.importLoop (rl + 1) (v * 128 + b % 128) s := by
  conv_lhs => simp only [VLV.importLoop]
  rw [if_neg (by omega), if_neg hb, Nat.mod_mod_of_dvd b (by norm_num : (128:Nat) ∣ 256)]

theorem VLV.importLoop_full {rl v : Nat} {s : List Nat} (h4 : rl + 1 > 4) :
    VLV.importLoop rl v s = .error (.VLV .VLVTooBig) := by
  cases s with
  | nil =>
    unfold VLV.importLoop
    rw [if_pos h4]
  | cons b t =>
    unfold VLV.importLoop
    rw [if_pos h4]
end SMF
namespace SMF
/-- Claim C7: VLV decoding succeeds on every 1-to-4-byte chain whose
continuation bits are consistent (set on every byte but the last),
including non-minimal encodings such as `80 00` for 0, and fails with
`VLVTooBig` on every stream whose first four bytes all carry the
continuation bit — before any fifth byte is even read. -/
theorem vlv_import_chain_behavior :
    (∀ (bs s : List Nat), 1 ≤ bs.length → bs.length ≤ 4 →
      (∀ i, i + 1 < bs.length → 128 ≤ bs.getD i 0 % 256) →
      bs.getD (bs.length - 1) 0 % 256 < 128 →
      ∃ v, VLV.import (bs ++ s) = .ok (v, s)) ∧
    (VLV.import [0x80, 0x00] = .ok (0, [])) ∧
    (∀ (b1 b2 b3 b4 : Nat) (s : List Nat),
      128 ≤ b1 % 256 → 128 ≤ b2 % 256 → 128 ≤ b3 % 256 → 128 ≤ b4 % 256 →
      VLV.import (b1 :: b2 :: b3 :: b4 :: s) = .error (.VLV .VLVTooBig)) := by
  refine ⟨?_, by decide, ?_⟩
  · intro bs s h1 h4 hcont hlast
    match bs, h1, h4 with
    | [b1], _, _ =>
      have hl : b1 % 256 < 128 := by simpa using hlast
      exact ⟨0 * 128 + b1 % 128, by
        rw [List.cons_append, List.nil_append, VLV.import,
          VLV.importLoop_last (by omega) hl]⟩
    | [b1, b2], _, _ =>
      have hc1 : 128 ≤ b1 % 256 := by
        have := hcont 0 (by norm_num)
        simpa using this
      have hl : b2 % 256 < 128 := by simpa using hlast
      exact ⟨(0 * 128 + b1 % 128) * 128 + b2 % 128, by
        rw [List.cons_append, List.cons_append, List.nil_append, VLV.import,
          VLV.importLoop_cont (by omega) (by omega),
          VLV.importLoop_last (by omega) hl]⟩
    | [b1, b2, b3], _, _ =>
      have hc1 : 128 ≤ b1 % 256 := by
        have := hcont 0 (by norm_num)
        simpa using this
      have hc2 : 128 ≤ b2 % 256 := by
        have := hcont 1 (by norm_num)
        simpa using this
      have hl : b3 % 256 < 128 := by simpa using hlast
      exact ⟨((0 * 128 + b1 % 128) * 128 + b2 % 128) * 128 + b3 % 128, by
        rw [List.cons_append, List.cons_append, List.cons_append, List.nil_append,
          VLV.import, VLV.importLoop_cont (by omega) (by omega),
          VLV.importLoop_cont (by omega) (by omega),
          VLV.importLoop_last (by omega) hl]⟩
    | [b1, b2, b3, b4], _, _ =>
      have hc1 : 128 ≤ b1 % 256 := by
        have := hcont 0 (by norm_num)
        simpa using this
      have hc2 : 128 ≤ b2 % 256 := by
        have := hcont 1 (by norm_num)
        simpa using this
      have hc3 : 128 ≤ b3 % 256 := by
        have := hcont 2 (by norm_num)
        simpa using this
      have hl : b4 % 256 < 128 := by simpa using hlast
      exact ⟨(((0 * 128 + b1 % 128) * 128 + b2 % 128) * 128 + b3 % 128) * 128 + b4 % 128, by
        rw [List.cons_append, List.cons_append, List.cons_append, List.cons_append,
          List.nil_append, VLV.import, VLV.importLoop_cont (by omega) (by omega),
          VLV.importLoop_cont (by omega) (by omega),
          VLV.importLoop_cont (by omega) (by omega),
          VLV.importLoop_last (by omega) hl]⟩
  · intro b1 b2 b3 b4 s hb1 hb2 hb3 hb4
    rw [VLV.import, VLV.importLoop_cont (by omega) (by omega),
      VLV.importLoop_cont (by omega) (by omega),
      VLV.importLoop_cont (by omega) (by omega),
      VLV.importLoop_cont (by omega) (by omega),
      VLV.importLoop_full (by omega)]

/-- Claim C7 witness: the non-minimal chain `80 80 80 00` (value 0)
decodes, and four continuation bytes `81 82 83 84` fail with
`VLVTooBig`. -/
theorem vlv_import_chain_behavior_witness :
    (∃ v, VLV.import ([128, 128, 128, 0] ++ [9]) = .ok (v, [9])) ∧
    VLV.import [0x80, 0x00] = .ok (0, []) ∧
    VLV.import [129, 130, 131, 132] = .error (.VLV .VLVTooBig) :=
  ⟨vlv_import_chain_behavior.1 [128, 128, 128, 0] [9] (by decide) (by decide)
      (by
        intro i hi
        have h3 : i < 3 := by
          simp only [List.length_cons, List.length_nil] at hi
          omega
        interval_cases i <;> decide)
      (by decide),
    vlv_import_chain_behavior.2.1,
    vlv_import_chain_behavior.2.2 129 130 131 132 [] (by decide) (by decide)
      (by decide) (by decide)⟩
end SMF
namespace SMF
/-- Claim C2: for every value below `2 ^ 28` the encoder succeeds with
the minimal byte count of the size table (1 below `2 ^ 7`, 2 below
`2 ^ 14`, 3 below `2 ^ 21`, else 4), decoding the encoding returns the
value and consumes exactly those bytes, every byte but the last carries
the continuation bit while the last does not, and byte `i` holds the
7-bit group `value / 128 ^ (length - 1 - i) % 128` — most significant
group first; for every value at or above `2 ^ 28` the encoder fails with
`NumberTooBig`. -/
theorem vlv_encode_decode_roundtrip :
    ∀ v : Nat,
      (v < 2 ^ 28 → ∃ bs, VLV.export v = .ok bs ∧
        bs.length = (if v < 2 ^ 7 then 1 else if v < 2 ^ 14 then 2
          else if v < 2 ^ 21 then 3 else 4) ∧
        (∀ s, VLV.import (bs ++ s) = .ok (v, s)) ∧
        (∀ i, i + 1 < bs.length → 128 ≤ bs.getD i 0) ∧
        bs.getD (bs.length - 1) 0 = v % 128 ∧
        (∀ i, i < bs.length → bs.getD i 0 % 128 = v / 128 ^ (bs.length - 1 - i) % 128)) ∧
      (2 ^ 28 ≤ v → VLV.export v = .error (.VLV (.NumberTooBig v))) := by
  intro v
  constructor
  · intro hv
    by_cases h7 : v < 2 ^ 7
    · have hc : calc_vlv_length v = .ok 1 := by
        simp only [calc_vlv_length]
        rw [if_pos (by omega)]
      have hb : VLV.export v = .ok [v % 128] := by
        simp only [VLV.export, hc, VLV.exportBytes]
        norm_num
      refine ⟨[v % 128], hb, by rw [if_pos h7]; rfl, ?_, ?_, ?_, ?_⟩
      · intro s
        rw [List.cons_append, List.nil_append, VLV.import,
          VLV.importLoop_last (by omega) (by omega)]
        have he : 0 * 128 + v % 128 % 128 = v := by omega
        rw [he]
      · intro i hi
        rw [List.length_cons, List.length_nil] at hi
        exact absurd hi (by omega)
      · show (v % 128) = v % 128
        rfl
      · intro i hi
        rw [List.length_cons, List.length_nil] at hi
        have hi0 : i = 0 := by omega
        subst hi0
        norm_num
    · by_cases h14 : v < 2 ^ 14
      · have hc : calc_vlv_length v = .ok 2 := by
          simp only [calc_vlv_length]
          rw [if_neg (by omega), if_pos (by omega)]
        have hb : VLV.export v = .ok [v / 128 % 128 + 128, v % 128] := by
          simp only [VLV.export, hc, VLV.exportBytes]
          norm_num [List.range_succ]
        refine ⟨_, hb, by rw [if_neg h7, if_pos h14]; rfl, ?_, ?_, ?_, ?_⟩
        · intro s
          rw [List.cons_append, List.cons_append, List.nil_append, VLV.import,
            VLV.importLoop_cont (by omega) (by omega),
            VLV.importLoop_last (by omega) (by omega)]
          have he : (0 * 128 + (v / 128 % 128 + 128) % 128) * 128 + v % 128 % 128 = v := by
            omega
          rw [he]
        · intro i hi
          rw [List.length_cons, List.length_cons, List.length_nil] at hi
          have hi0 : i = 0 := by omega
          subst hi0
          show 128 ≤ v / 128 % 128 + 128
          omega
        · show (v % 128) = v % 128
          rfl
        · intro i hi
          rw [List.length_cons, List.length_cons, List.length_nil] at hi
          interval_cases i
          · show (v / 128 % 128 + 128) % 128 = v / 128 ^ (2 - 1 - 0) % 128
            norm_num
          · show (v % 128) % 128 = v / 128 ^ (2 - 1 - 1) % 128
            norm_num
      · by_cases h21 : v < 2 ^ 21
        · have hc : calc_vlv_length v = .ok 3 := by
            simp only [calc_vlv_length]
            rw [if_neg (by omega), if_neg (by omega), if_pos (by omega)]
          have hb : VLV.export v =
              .ok [v / 16384 % 128 + 128, v / 128 % 128 + 128, v % 128] := by
            simp only [VLV.export, hc, VLV.exportBytes]
            norm_num [List.range_succ]
          refine ⟨_, hb, by rw [if_neg h7, if_neg h14, if_pos h21]; rfl, ?_, ?_, ?_, ?_⟩
          · intro s
            rw [List.cons_append, List.cons_append, List.cons_append, List.nil_append,
              VLV.import, VLV.importLoop_cont (by omega) (by omega),
              VLV.importLoop_cont (by omega) (by omega),
              VLV.importLoop_last (by omega) (by omega)]
            have he : ((0 * 128 + (v / 16384 % 128 + 128) % 128) * 128 +
                (v / 128 % 128 + 128) % 128) * 128 + v % 128 % 128 = v := by
              omega
            rw [he]
          · intro i hi
            rw [List.length_cons, List.length_cons, List.length_cons,
              List.length_nil] at hi
            have hub : i < 2 := by omega
            interval_cases i
            · show 128 ≤ v / 16384 % 128 + 128
              omega
            · show 128 ≤ v / 128 % 128 + 128
              omega
          · show (v % 128) = v % 128
            rfl
          · intro i hi
            rw [List.length_cons, List.length_cons, List.length_cons,
              List.length_nil] at hi
            interval_cases i
            · show (v / 16384 % 128 + 128) % 128 = v / 128 ^ (3 - 1 - 0) % 128
              norm_num
            · show (v / 128 % 128 + 128) % 128 = v / 128 ^ (3 - 1 - 1) % 128
              norm_num
            · show (v % 128) % 128 = v / 128 ^ (3 - 1 - 2) % 128
              norm_num
        · have hc : calc_vlv_length v = .ok 4 := by
            simp only [calc_vlv_length]
            rw [if_neg (by omega), if_neg (by omega), if_neg (by omega),
              if_pos (by omega)]
          have hb : VLV.export v =
              .ok [v / 2097152 % 128 + 128, v / 16384 % 128 + 128,
                v / 128 % 128 + 128, v % 128] := by
            simp only [VLV.export, hc, VLV.exportBytes]
            norm_num [List.range_succ]
          refine ⟨_, hb, by rw [if_neg h7, if_neg h14, if_neg h21]; rfl, ?_, ?_, ?_, ?_⟩
          · intro s
            rw [List.cons_append, List.cons_append, List.cons_append,
              List.cons_append, List.nil_append, VLV.import,
              VLV.importLoop_cont (by omega) (by omega),
              VLV.importLoop_cont (by omega) (by omega),
              VLV.importLoop_cont (by omega) (by omega),
              VLV.importLoop_last (by omega) (by omega)]
            have he : (((0 * 128 + (v / 2097152 % 128 + 128) % 128) * 128 +
                (v / 16384 % 128 + 128) % 128) * 128 +
                (v / 128 % 128 + 128) % 128) * 128 + v % 128 % 128 = v := by
              omega
            rw [he]
          · intro i hi
            rw [List.length_cons, List.length_cons, List.length_cons,
              List.length_cons, List.length_nil] at hi
            have hub : i < 3 := by omega
            interval_cases i
            · show 128 ≤ v / 2097152 % 128 + 128
              omega
            · show 128 ≤ v / 16384 % 128 + 128
              omega
            · show 128 ≤ v / 128 % 128 + 128
              omega
          · show (v % 128) = v % 128
            rfl
          · intro i hi
            rw [List.length_cons, List.length_cons, List.length_cons,
              List.length_cons, List.length_nil] at hi
            interval_cases i
            · show (v / 2097152 % 128 + 128) % 128 = v / 128 ^ (4 - 1 - 0) % 128
              norm_num
            · show (v / 16384 % 128 + 128) % 128 = v / 128 ^ (4 - 1 - 1) % 128
              norm_num
            · show (v / 128 % 128 + 128) % 128 = v / 128 ^ (4 - 1 - 2) % 128
              norm_num
            · show (v % 128) % 128 = v / 128 ^ (4 - 1 - 3) % 128
              norm_num
  · intro hv
    simp only [VLV.export, calc_vlv_length]
    rw [if_neg (by omega), if_neg (by omega), if_neg (by omega), if_neg (by omega)]

/-- Claim C2 witness at `v = 300` (two-byte range) and at `v = 2 ^ 28`
(too big). -/
theorem vlv_encode_decode_roundtrip_witness :
    (∃ bs, VLV.export 300 = .ok bs ∧
      bs.length = (if 300 < 2 ^ 7 then 1 else if 300 < 2 ^ 14 then 2
        else if 300 < 2 ^ 21 then 3 else 4) ∧
      (∀ s, VLV.import (bs ++ s) = .ok (300, s)) ∧
      (∀ i, i + 1 < bs.length → 128 ≤ bs.getD i 0) ∧
      bs.getD (bs.length - 1) 0 = 300 % 128 ∧
      (∀ i, i < bs.length → bs.getD i 0 % 128 = 300 / 128 ^ (bs.length - 1 - i) % 128)) ∧
    VLV.export (2 ^ 28) = .error (.VLV (.NumberTooBig (2 ^ 28))) :=
  ⟨(vlv_encode_decode_roundtrip 300).1 (by norm_num),
    (vlv_encode_decode_roundtrip (2 ^ 28)).2 (le_refl _)⟩
end SMF
namespace SMF

theorem map_mod256_eq_self {l : List Nat} (h : ∀ b ∈ l, b < 256) :
    l.map (fun b => b % 256) = l := by
  induction l with
  | nil => rfl
  | cons a t ih =>
    simp only [List.map_cons, List.cons.injEq]
    constructor
    · exact Nat.mod_eq_of_lt (h a (by simp))
    · exact ih (fun b hb => h b (by simp [hb]))

/-- Claim C10: decoding a text-carrying meta event never fails because of
the payload's content — after the declared VLV length `n`, any payload of
`n` bytes is accepted, exactly those `n` bytes are consumed, and the text
is the lossy UTF-8 conversion of the payload (invalid sequences replaced,
never an error); the nine text sub-types (1–9) of a meta event all decode
this way. -/
theorem text_meta_import_payload_total :
    ∀ (s s1 : List Nat) (n : Nat) (payload rest : List Nat),
      VLV.import s = .ok (n, s1) →
      s1 = payload ++ rest →
      payload.length = n →
      (∀ b ∈ payload, b < 256) →
      (TextMessage.import s =
        .ok ({ length := n, text := String.mk (utf8Lossy payload) }, rest)) ∧
      (∀ t, 1 ≤ t → t ≤ 9 →
        ∃ ev, Event.import (255 :: t :: s) none = .ok ((ev, 255), rest)) := by
  intro s s1 n payload rest hv hs1 hlen hbytes
  subst hs1
  subst hlen
  have hre : readExact payload.length (payload ++ rest) = .ok (payload, rest) := by
    unfold readExact
    rw [if_pos (by simp)]
    rw [List.take_left, List.drop_left, map_mod256_eq_self hbytes]
  have hTM : TextMessage.import s =
      .ok ({ length := payload.length, text := String.mk (utf8Lossy payload) }, rest) := by
    simp only [TextMessage.import, hv, hre]
  refine ⟨hTM, ?_⟩
  intro t ht1 ht9
  have himp : ∀ d : Except SMFError (Event × List Nat), Event.dispatch 255 t s = d →
      Event.import (255 :: t :: s) none =
        (match d with
         | .error e => .error e
         | .ok (ev, s3) => .ok ((ev, 255), s3)) := by
    intro d hd
    have hmt : t % 256 = t := Nat.mod_eq_of_lt (by omega)
    simp only [Event.import, readU8]
    norm_num [hmt, hd]
  interval_cases t
  · exact ⟨Event.Text _, by
      rw [himp _ (by rw [show Event.dispatch 255 1 s =
        (match TextMessage.import s with
         | .error e => .error e
         | .ok (x, s2) => .ok (Event.Text x, s2)) from rfl, hTM])]⟩
  · exact ⟨Event.Copyright _, by
      rw [himp _ (by rw [show Event.dispatch 255 2 s =
        (match TextMessage.import s with
         | .error e => .error e
         | .ok (x, s2) => .ok (Event.Copyright x, s2)) from rfl, hTM])]⟩
  · exact ⟨Event.SequenceTrackName _, by
      rw [himp _ (by rw [show Event.dispatch 255 3 s =
        (match TextMessage.import s with
         | .error e => .error e
         | .ok (x, s2) => .ok (Event.SequenceTrackName x, s2)) from rfl, hTM])]⟩
  · exact ⟨Event.InstrumentName _, by
      rw [himp _ (by rw [show Event.dispatch 255 4 s =
        (match TextMessage.import s with
         | .error e => .error e
         | .ok (x, s2) => .ok (Event.InstrumentName x, s2)) from rfl, hTM])]⟩
  · exact ⟨Event.Lyric _, by
      rw [himp _ (by rw [show Event.dispatch 255 5 s =
        (match TextMessage.import s with
         | .error e => .error e
         | .ok (x, s2) => .ok (Event.Lyric x, s2)) from rfl, hTM])]⟩
  · exact ⟨Event.Marker _, by
      rw [himp _ (by rw [show Event.dispatch 255 6 s =
        (match TextMessage.import s with
         | .error e => .error e
         | .ok (x, s2) => .ok (Event.Marker x, s2)) from rfl, hTM])]⟩
  · exact ⟨Event.CuePoint _, by
      rw [himp _ (by rw [show Event.dispatch 255 7 s =
        (match TextMessage.import s with
         | .error e => .error e
         | .ok (x, s2) => .ok (Event.CuePoint x, s2)) from rfl, hTM])]⟩
  · exact ⟨Event.ProgramName _, by
      rw [himp _ (by rw [show Event.dispatch 255 8 s =
        (match TextMessage.import s with
         | .error e => .error e
         | .ok (x, s2) => .ok (Event.ProgramName x, s2)) from rfl, hTM])]⟩
  · exact ⟨Event.DeviceName _, by
      rw [himp _ (by rw [show Event.dispatch 255 9 s =
        (match TextMessage.import s with
         | .error e => .error e
         | .ok (x, s2) => .ok (Event.DeviceName x, s2)) from rfl, hTM])]⟩

end SMF
namespace SMF

/-- Claim C10 witness: declared length 3 with payload `68 FF 69` — the
`FF` byte is not valid UTF-8 yet decoding succeeds, consuming exactly the
three payload bytes, also through the meta dispatch for sub-type 1. -/
theorem text_meta_import_payload_total_witness :
    (TextMessage.import [3, 104, 255, 105] =
      .ok ({ length := 3, text := String.mk (utf8Lossy [104, 255, 105]) }, [])) ∧
    (∃ ev, Event.import (255 :: 1 :: [3, 104, 255, 105]) none = .ok ((ev, 255), [])) := by
  have h := text_meta_import_payload_total [3, 104, 255, 105] [104, 255, 105] 3
    [104, 255, 105] [] (by decide) rfl (by decide) (by decide)
  exact ⟨h.1, h.2 1 (by decide) (by decide)⟩

/-- Claim C8: the event loop of a track decode returns either the
complete ordered sequence of all successfully decoded (delta-time, event)
records until the byte budget is exhausted (`RunOk`), or exactly the
error of the first failing inner decode step, unchanged (`RunErr`); and
a full `SMFTrack::import` that succeeds carries the complete run of its
event loop, while one that fails carries either a header error or the
first inner error of its loop. -/
theorem track_decode_first_error_or_complete :
    ∀ (budget consumed : Nat) (prev : Option Nat) (s : List Nat),
      (∀ l sFin, SMFTrack.importEvents budget consumed prev s = .ok (l, sFin) →
        RunOk budget consumed prev s l sFin) ∧
      (∀ e, SMFTrack.importEvents budget consumed prev s = .error e →
        RunErr budget consumed prev s e) ∧
      (∀ tr sFin, SMFTrack.import s = .ok (tr, sFin) →
        ∃ s1 s2, checkMagicMTrk s = .ok s1 ∧ readBeU32 s1 = .ok (tr.length, s2) ∧
          RunOk tr.length 0 none s2 tr.trackEvents sFin) ∧
      (∀ e, SMFTrack.import s = .error e →
        checkMagicMTrk s = .error e ∨
        (∃ s1, checkMagicMTrk s = .ok s1 ∧ readBeU32 s1 = .error e) ∨
        (∃ s1 len s2, checkMagicMTrk s = .ok s1 ∧ readBeU32 s1 = .ok (len, s2) ∧
          RunErr len 0 none s2 e)) := by
  intro budget consumed prev s
  refine ⟨(SMFTrack.importEventsRunAux s.length budget consumed prev s (le_refl _)).1,
    (SMFTrack.importEventsRunAux s.length budget consumed prev s (le_refl _)).2, ?_, ?_⟩
  · intro tr sFin h
    simp only [SMFTrack.import] at h
    split at h
    · exact Except.noConfusion h
    · rename_i s1 hm
      split at h
      · exact Except.noConfusion h
      · rename_i len s2 hlen
        split at h
        · exact Except.noConfusion h
        · rename_i evs s3 hev
          simp only [Except.ok.injEq, Prod.mk.injEq] at h
          obtain ⟨htr, hs⟩ := h
          subst hs
          refine ⟨s1, s2, hm, ?_, ?_⟩
          · rw [← htr]
            exact hlen
          · rw [← htr]
            exact (SMFTrack.importEventsRunAux s2.length len 0 none s2 (le_refl _)).1
              evs s3 hev
  · intro e h
    simp only [SMFTrack.import] at h
    split at h
    · rename_i e2 hm
      cases h
      exact Or.inl hm
    · rename_i s1 hm
      split at h
      · rename_i e2 hlen
        cases h
        exact Or.inr (Or.inl ⟨s1, hm, hlen⟩)
      · rename_i len s2 hlen
        split at h
        · rename_i e2 hev
          cases h
          exact Or.inr (Or.inr ⟨s1, len, s2, hm, hlen,
            (SMFTrack.importEventsRunAux s2.length len 0 none s2 (le_refl _)).2 _ hev⟩)
        · exact Except.noConfusion h

/-- Claim C8 witness: the loop with budget 4 on `00 FF 2F 00` is the
complete one-event run ending with the stream consumed. -/
theorem track_decode_first_error_or_complete_witness :
    RunOk 4 0 none [0, 255, 47, 0] [{ deltaTime := 0, event := Event.EndOfTrack {} }] [] := by
  have hte : TrackEvent.import [0, 255, 47, 0] none =
      .ok (({ deltaTime := 0, event := Event.EndOfTrack {} }, 255), []) := by decide
  have h1 : SMFTrack.importEvents 4 4 (some 255) [] = .ok ([], []) :=
    SMFTrack.importEvents_stop (by omega)
  have h0 : SMFTrack.importEvents 4 0 none [0, 255, 47, 0] =
      .ok ([{ deltaTime := 0, event := Event.EndOfTrack {} }], []) :=
    SMFTrack.importEvents_step_ok (by omega) hte h1
  exact (track_decode_first_error_or_complete 4 0 none [0, 255, 47, 0]).1 _ _ h0

end SMF
